import Mathlib

/-!
Verification of the Smart Interview Assistant against its specification.

The development shallowly embeds the three source files of the repository:
`src/app.component.ts` (the interview session controller),
`src/services/pdf-parser.service.ts` (the PDF text extractor together with
the Gemini model client), and the unnamed speech service file
(`SpeechService`, text-to-speech and speech-to-text with countdown and
silence timers).  Asynchronous operations are modelled as pure functions
taking the results of their external calls as extra arguments; mutable
component state is modelled by explicit state passing.
-/

/-! ## JavaScript string helpers

Structural-recursion models of the JavaScript string operations used by the
source (`String.prototype.trim`, `split(/\s+/).filter(Boolean)` and
`Array.prototype.join`), defined over `String.data` so that every theorem
below can be evaluated by kernel reduction. -/

/-- Whitespace characters recognised by the JavaScript `\s` class and
`String.prototype.trim` (restricted to the ASCII whitespace that can occur
in the inputs handled by this application). -/
def isJsSpace (c : Char) : Bool :=
  c == ' ' || c == '\t' || c == '\n' || c == '\r' || c == '\x0b' || c == '\x0c'

/-- Drop leading JavaScript whitespace from a character list. -/
def dropJsSpace : List Char → List Char
  | [] => []
  | c :: cs => if isJsSpace c then dropJsSpace cs else c :: cs

/-- Model of JavaScript `String.prototype.trim`. -/
def jsTrim (s : String) : String :=
  ⟨(dropJsSpace (dropJsSpace s.data).reverse).reverse⟩

/-- Worker for `jsWords`: accumulates the current word (reversed) and emits
maximal runs of non-whitespace characters. -/
def jsWordsAux : List Char → List Char → List String
  | acc, [] => if acc.isEmpty then [] else [⟨acc.reverse⟩]
  | acc, c :: cs =>
    if isJsSpace c then
      if acc.isEmpty then jsWordsAux [] cs else ⟨acc.reverse⟩ :: jsWordsAux [] cs
    else jsWordsAux (c :: acc) cs

/-- Model of JavaScript `s.split(/\s+/).filter(Boolean)`: the non-empty
maximal whitespace-separated tokens of `s`, in order. -/
def jsWords (s : String) : List String :=
  jsWordsAux [] s.data

/-- Model of JavaScript `Array.prototype.join(sep)`: the elements separated
by `sep`, with no leading or trailing separator. -/
def jsJoin (sep : String) : List String → String
  | [] => ""
  | [x] => x
  | x :: y :: xs => x ++ sep ++ jsJoin sep (y :: xs)

/-! ## Data model (`app.component.ts`) -/

/-- The role of a chat message (`'user' | 'assistant' | 'system'`). -/
inductive Role
  | user
  | assistant
  | system
deriving DecidableEq, Repr

/-- Model of `ChatMessage` from `app.component.ts`.  The `isAnalyzing` writable
signal is modelled as a plain boolean field. -/
structure ChatMessage where
  id : Nat
  role : Role
  text : String
  questionContext : Option String
  isAnalyzing : Bool
deriving DecidableEq, Repr

/-- Model of `MistakeSegment` from `app.component.ts`. -/
structure MistakeSegment where
  text : String
  isError : Bool
  correction : Option String
deriving DecidableEq, Repr

/-- Model of `ModalData` from `app.component.ts`. -/
structure ModalData where
  title : String
  isSuggestion : Bool
  suggestionContent : Option String
  mistakeContent : Option (List MistakeSegment)
deriving DecidableEq, Repr

/-- The controller phase (`'initial' | 'loading' | 'chat'`); the spec calls
the first phase `Idle` and the last one the chat-ready phase. -/
inductive AppState
  | initial
  | loading
  | chat
deriving DecidableEq, Repr

/-- The mutable state of `AppComponent`: its signals plus the private
`nextId` counter.  The speech service listening flag is included because
`submitAnswer` calls `stopListening`. -/
structure AppComponentState where
  appState : AppState
  loadingMessage : String
  conversation : List ChatMessage
  userInput : String
  modalData : Option ModalData
  nextId : Nat
  listening : Bool
deriving DecidableEq, Repr

/-! ## Document text extractor (`pdf-parser.service.ts`) -/

/-- Model of `PdfParserService.getText`, with the parsed document abstracted to its
list of pages, each page being its list of text-run strings.  The source
iterates the pages in order, joins the runs of one page with a single
space (`items.map(i => i.str).join(' ')`) and appends `pageText + '\n\n'`
to the accumulator for every page. -/
def PdfParserService.getText (pages : List (List String)) : String :=
  List.foldl (fun acc page => acc ++ jsJoin " " page ++ "\n\n") "" pages

/-- Spec-side definition for claim C3, following the specification words:
the per-page texts "joined with a blank-line separator between pages, in
page order" (no trailing separator). -/
def pagesJoinedSpec : List String → String
  | [] => ""
  | [p] => p
  | p :: q :: ps => p ++ "\n\n" ++ pagesJoinedSpec (q :: ps)

/-! ## Conversation model client (`GeminiService`)

Each operation awaits one call of the hosted model; the call is modelled
by an `Except` argument carrying either the response text or the thrown
error.  Prompt construction is pure string assembly and is modelled only
where a claim depends on it (the word-count cap of `suggestAnswer`). -/

/-- An error thrown by the hosted model call, abstracted to its message. -/
def ApiError : Type := String

/-- The fixed apology returned by `GeminiService.generateContent` when the
underlying call throws. -/
def apologyText : String := "Sorry, I encountered an error. Please try again."

/-- The JSON fallback returned by `GeminiService.analyzeMistakes` when the
underlying call throws: the `JSON.stringify` image of the single-element
array holding the apology segment. -/
def analyzeFallbackJson : String :=
  "[\x7b\"text\":\"Sorry, an error occurred while analyzing the answer.\",\"isError\":false,\"correction\":\"\"\x7d]"

/-- Model of `GeminiService.generateContent`: returns the response text, or the
fixed apology when the call throws. -/
def GeminiService.generateContent (call : Except ApiError String) : String :=
  match call with
  | .ok t => t
  | .error _ => apologyText

/-- Model of `GeminiService.generateFirstQuestion`: builds a prompt from the resume
text and delegates to `generateContent`. -/
def GeminiService.generateFirstQuestion (_resumeText : String)
    (call : Except ApiError String) : String :=
  GeminiService.generateContent call

/-- Model of `GeminiService.generateFollowUpQuestion`: serialises the conversation
into a transcript and delegates to `generateContent`. -/
def GeminiService.generateFollowUpQuestion (_history : List ChatMessage)
    (call : Except ApiError String) : String :=
  GeminiService.generateContent call

/-- Model of `GeminiService.analyzeMistakes`: returns the schema-constrained JSON
text, or the fallback JSON array when the call throws. -/
def GeminiService.analyzeMistakes (_question _answer : String)
    (call : Except ApiError String) : String :=
  match call with
  | .ok t => t
  | .error _ => analyzeFallbackJson

/-- The word-count cap interpolated into the prompt of the
`gemini.service.ts` variant of `suggestAnswer`:
`userAnswer.split(/\s+/).filter(Boolean).length` words, capped by
`Math.min(120, count)` and overridden to `50` when the count is below
`30`. -/
def GeminiService.suggestMaxWords (userAnswer : String) : Nat :=
  let userAnswerWordCount := (jsWords userAnswer).length
  let maxWords := min 120 userAnswerWordCount
  if userAnswerWordCount < 30 then 50 else maxWords

/-- Model of `GeminiService.suggestAnswer`: builds the coaching prompt (including
the word-count cap in the first variant) and delegates to
`generateContent`. -/
def GeminiService.suggestAnswer (_question _userAnswer : String)
    (call : Except ApiError String) : String :=
  GeminiService.generateContent call

/-! ### Claim C3 -/

/-- Helper for claim C3: the page texts each terminated by the blank-line
separator. -/
def pagesTerminated : List String → String
  | [] => ""
  | p :: ps => p ++ "\n\n" ++ pagesTerminated ps

/-- A lemma factoring the extraction loop: folding the page accumulator
equals the accumulator followed by every page text terminated by the
blank-line separator. -/
theorem getText_foldl_eq (pages : List (List String)) :
    ∀ acc : String,
      List.foldl (fun a page => a ++ jsJoin " " page ++ "\n\n") acc pages
        = acc ++ pagesTerminated (pages.map (jsJoin " ")) := by
  induction pages with
  | nil => intro acc; simp [pagesTerminated, String.append_empty]
  | cons p ps ih =>
    intro acc
    simp only [List.foldl_cons, List.map_cons, pagesTerminated]
    rw [ih]
    simp [String.append_assoc]

/-- Terminated page texts are the separator-joined page texts followed by
one trailing separator, whenever at least one page exists. -/
theorem pagesTerminated_eq_joined :
    ∀ xs : List String, xs ≠ [] → pagesTerminated xs = pagesJoinedSpec xs ++ "\n\n"
  | [], h => absurd rfl h
  | [x], _ => by simp [pagesTerminated, pagesJoinedSpec, String.append_empty]
  | x :: y :: ys, _ => by
    have ih := pagesTerminated_eq_joined (y :: ys) (by simp)
    simp only [pagesTerminated, pagesJoinedSpec] at *
    rw [ih]
    simp [String.append_assoc]

/-- C3 (corrected): for every non-empty (in particular every multi-page)
PDF, the extracted text equals the per-page texts (runs joined with a
single space) joined with a blank-line separator between pages, in page
order, followed by one trailing blank-line separator — the loop appends
the separator after every page, including the last. -/
theorem getText_eq_joined_pages_with_trailing_sep
    (pages : List (List String)) (h : pages ≠ []) :
    PdfParserService.getText pages
      = pagesJoinedSpec (pages.map (jsJoin " ")) ++ "\n\n" := by
  rw [PdfParserService.getText, getText_foldl_eq, String.empty_append,
    pagesTerminated_eq_joined]
  intro hm
  exact h (List.map_eq_nil_iff.mp hm)

/-- Witness for C3: a concrete two-page document. -/
theorem getText_eq_joined_pages_with_trailing_sep_witness :
    ([["Jane", "Doe,", "UX", "Designer"], ["Skills"]] : List (List String)) ≠ [] ∧
      PdfParserService.getText [["Jane", "Doe,", "UX", "Designer"], ["Skills"]]
        = pagesJoinedSpec
            (([["Jane", "Doe,", "UX", "Designer"], ["Skills"]] : List (List String)).map
              (jsJoin " ")) ++ "\n\n" :=
  ⟨by decide,
    getText_eq_joined_pages_with_trailing_sep
      [["Jane", "Doe,", "UX", "Designer"], ["Skills"]] (by decide)⟩

/-- Counterexample for C3 as stated: on the two-page document whose pages
hold the single text runs "a" and "b", the extractor returns "a\n\nb\n\n",
not the plain blank-line-separator join "a\n\nb" — the separator also
trails the final page. -/
theorem getText_trailing_separator_cex :
    PdfParserService.getText [["a"], ["b"]]
        ≠ pagesJoinedSpec (([["a"], ["b"]] : List (List String)).map (jsJoin " ")) ∧
      PdfParserService.getText [["a"], ["b"]] = "a\n\nb\n\n" ∧
      pagesJoinedSpec (([["a"], ["b"]] : List (List String)).map (jsJoin " "))
        = "a\n\nb" := by
  refine ⟨by decide, rfl, rfl⟩

/-! ### Claims C4 and C9 -/

/-- C4 (confirmed): when the underlying model call throws, every free-text
operation of the model client returns the fixed apology string, and the
structured `analyzeMistakes` operation returns the JSON text of the
single-element array holding the apology segment with `isError := false`
and empty correction; the error is absorbed, never propagated (every
operation is total with return type `String`). -/
theorem geminiService_failure_fallbacks (e : ApiError)
    (resumeText question answer : String) (history : List ChatMessage) :
    GeminiService.generateContent (.error e) = apologyText ∧
      GeminiService.generateFirstQuestion resumeText (.error e) = apologyText ∧
      GeminiService.generateFollowUpQuestion history (.error e) = apologyText ∧
      GeminiService.suggestAnswer question answer (.error e) = apologyText ∧
      GeminiService.analyzeMistakes question answer (.error e) = analyzeFallbackJson :=
  ⟨rfl, rfl, rfl, rfl, rfl⟩

/-- C9 (confirmed): the word-count cap placed in the prompt of
`suggestAnswer` is the minimum of 120 and the answer's word count (the
non-empty whitespace-separated tokens), except that an answer of fewer
than 30 words gets the fixed cap 50; in particular the cap never exceeds
120. -/
theorem suggestAnswer_word_cap_policy (answer : String) :
    GeminiService.suggestMaxWords answer
        = (if (jsWords answer).length < 30 then 50
           else min 120 (jsWords answer).length) ∧
      GeminiService.suggestMaxWords answer ≤ 120 := by
  refine ⟨rfl, ?_⟩
  rw [GeminiService.suggestMaxWords]
  split
  · omega
  · exact min_le_left _ _

/-! ## Interview session controller (`AppComponent`) -/

/-- A file handed to the upload handler, abstracted to its MIME type. -/
structure UploadFile where
  ftype : String
deriving DecidableEq, Repr

/-- The system marker text installed after a successful upload. -/
def resumeProcessedText : String := "Resume processed. The interview will now begin."

/-- The placeholder question context used when no assistant question is
found. -/
def noQuestionFoundText : String := "No question found"

/-- Loading message shown while the resume is extracted. -/
def readingResumeText : String := "Reading your resume..."

/-- Loading message shown while the first question is requested. -/
def thinkingFirstText : String := "Thinking of the first question..."

/-- Loading message shown while a follow-up question is requested. -/
def thinkingNextText : String := "Thinking of the next question..."

/-- Generic error text shown when the mistake-analysis JSON fails to
parse. -/
def analysisParseErrorText : String :=
  "Sorry, I could not analyze the mistakes in the response."

/-- The initial component state: `appState` is the `initial` (Idle) phase,
the conversation is empty, and `nextId` starts at 0. -/
def AppComponent.initState : AppComponentState :=
  { appState := .initial
    loadingMessage := "Processing..."
    conversation := []
    userInput := ""
    modalData := none
    nextId := 0
    listening := false }

/-- Model of `AppComponent.addMessage`: appends a message carrying the current
`nextId` and post-increments the counter. -/
def AppComponent.addMessage (s : AppComponentState) (role : Role) (text : String)
    (questionContext : Option String) : AppComponentState :=
  { s with
    conversation :=
      s.conversation ++
        [{ id := s.nextId, role := role, text := text,
           questionContext := questionContext, isAnalyzing := false }]
    nextId := s.nextId + 1 }

/-- The `lastQuestion` computation of `submitAnswer`:
`[...conversation].reverse().find(m => m.role === 'assistant')?.text ||
'No question found'`.  Note that the JavaScript `||` falls back to the
placeholder not only when no assistant message exists but also when the
found assistant text is the empty string (falsy). -/
def AppComponent.lastQuestionOf (conv : List ChatMessage) : String :=
  match conv.reverse.find? (fun m => m.role == Role.assistant) with
  | some m => if m.text = "" then noQuestionFoundText else m.text
  | none => noQuestionFoundText

/-- Spec-side definition for claim C2: the text of the most recent
message with role `assistant`, by position in the conversation. -/
def lastAssistantText (conv : List ChatMessage) : Option String :=
  ((conv.filter (fun m => m.role == Role.assistant)).getLast?).map (fun m => m.text)

/-- Spec-side definition for claim C2 (amended): the question context the
controller attaches — the most recent assistant text when it is non-empty,
the fixed placeholder when no assistant message exists or its text is
empty. -/
def expectedQuestionContext (conv : List ChatMessage) : String :=
  match lastAssistantText conv with
  | some t => if t = "" then noQuestionFoundText else t
  | none => noQuestionFoundText

/-- Model of `AppComponent.submitAnswer`.  The awaited follow-up question (result of
`generateFollowUpQuestion`, which never throws) is passed as `followUp`;
the 500 ms pacing delay has no state effect.  The guard returns
unchanged when the trimmed input is empty or the phase is `loading`. -/
def AppComponent.submitAnswer (s : AppComponentState) (followUp : String) :
    AppComponentState :=
  let text := jsTrim s.userInput
  if text = "" ∨ s.appState = AppState.loading then s
  else
    let s0 := { s with listening := false }
    let lastQuestion := AppComponent.lastQuestionOf s0.conversation
    let s1 := AppComponent.addMessage s0 .user text (some lastQuestion)
    let s2 := { s1 with userInput := "" }
    let s3 := { s2 with appState := AppState.loading, loadingMessage := thinkingNextText }
    let s4 := AppComponent.addMessage s3 .assistant followUp none
    { s4 with appState := AppState.chat }

/-- Model of `AppComponent.onFileSelected`.  The extraction result and the awaited
first question are passed in; `speakOk` tells whether the final
`speak(firstQuestion)` resolved (its rejection is caught by the handler,
which reverts the phase to `initial`).  A missing file or a non-PDF MIME
type returns with no state change. -/
def AppComponent.onFileSelected (s : AppComponentState) (files : List UploadFile)
    (extract : Except Unit String) (firstQuestion : String) (speakOk : Bool) :
    AppComponentState :=
  match files with
  | [] => s
  | file :: _ =>
    if file.ftype = "application/pdf" then
      let s1 := { s with appState := AppState.loading, loadingMessage := readingResumeText }
      match extract with
      | .error _ => { s1 with appState := AppState.initial }
      | .ok _resumeText =>
        let sysMsg : ChatMessage :=
          { id := s1.nextId, role := .system, text := resumeProcessedText,
            questionContext := none, isAnalyzing := false }
        let s2 := { s1 with conversation := [sysMsg], nextId := s1.nextId + 1,
                            appState := AppState.chat }
        let s3 := { s2 with loadingMessage := thinkingFirstText,
                            appState := AppState.loading }
        let s4 := AppComponent.addMessage s3 .assistant firstQuestion none
        let s5 := { s4 with appState := AppState.chat }
        if speakOk then s5 else { s5 with appState := AppState.initial }
    else s

/-- The two analysis kinds of `requestAnalysis`. -/
inductive AnalysisKind
  | mistakes
  | suggestion
deriving DecidableEq, Repr

/-- A record of one model-client call issued by `requestAnalysis`. -/
structure CallRecord where
  kind : AnalysisKind
  question : String
  answer : String
deriving DecidableEq, Repr

/-- Model of `AppComponent.requestAnalysis`, acting on the message at index `idx`
of the conversation.  For the mistakes kind, `parsed` is the result of
`JSON.parse` on the returned analysis text (`none` models a parse
failure).  The function returns the new state together with the
model-client call it issued, if any; the guard
`if (!message.questionContext) return` makes it a no-op when the
question context is absent (or, being falsy, empty). -/
def AppComponent.requestAnalysis (s : AppComponentState) (kind : AnalysisKind)
    (idx : Nat) (parsed : Option (List MistakeSegment)) (suggestion : String) :
    AppComponentState × Option CallRecord :=
  match s.conversation.get? idx with
  | none => (s, none)
  | some msg =>
    match msg.questionContext with
    | none => (s, none)
    | some qc =>
      if qc = "" then (s, none)
      else
        let conv1 := s.conversation.set idx { msg with isAnalyzing := true }
        let modal : ModalData :=
          match kind with
          | .mistakes =>
            match parsed with
            | some segs =>
              { title := "Mistake Analysis", isSuggestion := false,
                suggestionContent := none, mistakeContent := some segs }
            | none =>
              { title := "Error", isSuggestion := false,
                suggestionContent := some analysisParseErrorText, mistakeContent := none }
          | .suggestion =>
            { title := "Suggested Answer", isSuggestion := true,
              suggestionContent := some suggestion, mistakeContent := none }
        let conv2 := conv1.set idx { msg with isAnalyzing := false }
        ({ s with conversation := conv2, modalData := some modal },
          some { kind := kind, question := qc, answer := msg.text })

/-! ### Claim C1 -/

/-- C1 (corrected): `submitAnswer` is a no-op — the whole state, in
particular the conversation, is unchanged — whenever the trimmed input is
empty (empty or whitespace-only input) or the phase is the `loading`
phase.  The guard tests `appState === 'loading'` only, so the `initial`
phase is not covered (see the counterexample). -/
theorem submitAnswer_no_op_of_blank_or_loading (s : AppComponentState)
    (followUp : String)
    (h : jsTrim s.userInput = "" ∨ s.appState = AppState.loading) :
    AppComponent.submitAnswer s followUp = s := by
  rw [AppComponent.submitAnswer]
  exact if_pos h

/-- Witness for C1: a concrete state in the chat phase whose pending input
is whitespace-only. -/
theorem submitAnswer_no_op_witness :
    (jsTrim "  \n " = "" ∨
        ({ AppComponent.initState with appState := AppState.chat, userInput := "  \n " }
            : AppComponentState).appState = AppState.loading) ∧
      AppComponent.submitAnswer
          { AppComponent.initState with appState := AppState.chat, userInput := "  \n " }
          "Next question?"
        = { AppComponent.initState with appState := AppState.chat, userInput := "  \n " } :=
  ⟨Or.inl (by decide),
    submitAnswer_no_op_of_blank_or_loading _ _ (Or.inl (by decide))⟩

/-- Counterexample for C1 as stated: in the `initial` phase — which is not
the chat-ready phase — submitting the non-empty input "hi" appends to the
conversation; the guard only covers the `loading` phase. -/
theorem submitAnswer_initial_phase_appends_cex :
    ({ AppComponent.initState with userInput := "hi" } : AppComponentState).appState
        ≠ AppState.chat ∧
      (AppComponent.submitAnswer
            { AppComponent.initState with userInput := "hi" } "Next?").conversation
        ≠ ({ AppComponent.initState with userInput := "hi" }
            : AppComponentState).conversation := by
  constructor
  · decide
  · decide

/-! ### Claim C2 -/

/-- Finding the last match by searching the reversed list equals taking
the last element of the filtered list. -/
theorem find?_reverse_eq_getLast?_filter {α : Type} (p : α → Bool) :
    ∀ l : List α, l.reverse.find? p = (l.filter p).getLast? := by
  intro l
  induction l using List.reverseRecOn with
  | nil => rfl
  | append_singleton l a ih =>
    rw [List.reverse_append, List.filter_append]
    by_cases hp : p a
    · rw [List.reverse_singleton, List.singleton_append, List.find?_cons_of_pos _ hp,
        List.filter_cons, if_pos hp, List.filter_nil, List.getLast?_concat]
    · rw [List.reverse_singleton, List.singleton_append, List.find?_cons_of_neg _ hp,
        List.filter_cons, if_neg hp, List.filter_nil, List.append_nil, ih]

/-- The code's `lastQuestionOf` agrees with the spec-side
`expectedQuestionContext`. -/
theorem lastQuestionOf_eq_expected (conv : List ChatMessage) :
    AppComponent.lastQuestionOf conv = expectedQuestionContext conv := by
  rw [AppComponent.lastQuestionOf, expectedQuestionContext, lastAssistantText,
    find?_reverse_eq_getLast?_filter]
  cases (conv.filter (fun m => m.role == Role.assistant)).getLast? with
  | none => rfl
  | some m => rfl

/-- C2 (corrected): whenever `submitAnswer` actually appends (non-blank
input, phase not `loading`), the newly appended user message — the one at
position `s.conversation.length` — carries as question context the text
of the most recent assistant message when that text is non-empty, and the
fixed placeholder when no assistant message exists or the most recent
assistant text is the empty string (the JavaScript `||` treats the empty
text as missing). -/
theorem submitAnswer_questionContext (s : AppComponentState) (followUp : String)
    (h : ¬(jsTrim s.userInput = "" ∨ s.appState = AppState.loading)) :
    ((AppComponent.submitAnswer s followUp).conversation.get? s.conversation.length).map
        (fun m => (m.role, m.questionContext))
      = some (Role.user, some (expectedQuestionContext s.conversation)) := by
  rw [AppComponent.submitAnswer]
  rw [if_neg h]
  simp only [AppComponent.addMessage]
  rw [List.append_assoc]
  rw [List.get?_eq_getElem?, List.getElem?_append_right (Nat.le_refl _)]
  simp [lastQuestionOf_eq_expected]

/-- Witness for C2: a concrete chat state with one assistant question and
the pending answer "I am a designer". -/
theorem submitAnswer_questionContext_witness :
    ¬(jsTrim
          ({ AppComponent.initState with
              appState := AppState.chat
              conversation :=
                [{ id := 0, role := Role.assistant, text := "Tell me about yourself",
                   questionContext := none, isAnalyzing := false }]
              userInput := "I am a designer", nextId := 1 }
            : AppComponentState).userInput = "" ∨
        ({ AppComponent.initState with
            appState := AppState.chat
            conversation :=
              [{ id := 0, role := Role.assistant, text := "Tell me about yourself",
                 questionContext := none, isAnalyzing := false }]
            userInput := "I am a designer", nextId := 1 }
          : AppComponentState).appState = AppState.loading) ∧
      ((AppComponent.submitAnswer
            { AppComponent.initState with
                appState := AppState.chat
                conversation :=
                  [{ id := 0, role := Role.assistant, text := "Tell me about yourself",
                     questionContext := none, isAnalyzing := false }]
                userInput := "I am a designer", nextId := 1 }
            "And why UX?").conversation.get?
          ({ AppComponent.initState with
              appState := AppState.chat
              conversation :=
                [{ id := 0, role := Role.assistant, text := "Tell me about yourself",
                   questionContext := none, isAnalyzing := false }]
              userInput := "I am a designer", nextId := 1 }
            : AppComponentState).conversation.length).map
          (fun m => (m.role, m.questionContext))
        = some (Role.user,
            some (expectedQuestionContext
              ({ AppComponent.initState with
                  appState := AppState.chat
                  conversation :=
                    [{ id := 0, role := Role.assistant, text := "Tell me about yourself",
                       questionContext := none, isAnalyzing := false }]
                  userInput := "I am a designer", nextId := 1 }
                : AppComponentState).conversation)) :=
  ⟨by decide, submitAnswer_questionContext _ _ (by decide)⟩

/-- Counterexample for C2 as stated: when the most recent assistant
message has empty text, the appended user message's question context is
the placeholder, not that (empty) text. -/
theorem submitAnswer_questionContext_empty_assistant_cex :
    lastAssistantText
        [{ id := 0, role := Role.assistant, text := "",
           questionContext := none, isAnalyzing := false }] = some "" ∧
      ((AppComponent.submitAnswer
            { AppComponent.initState with
                appState := AppState.chat
                conversation :=
                  [{ id := 0, role := Role.assistant, text := "",
                     questionContext := none, isAnalyzing := false }]
                userInput := "hi", nextId := 1 }
            "Next?").conversation.get? 1).map (fun m => m.questionContext)
        = some (some noQuestionFoundText) ∧
      (noQuestionFoundText : String) ≠ "" := by
  refine ⟨by decide, by decide, by decide⟩

/-! ### Claim C5 -/

/-- C5 (confirmed): a selected file whose MIME type is not
`application/pdf` is rejected with no state change: from the `initial`
(Idle) phase the phase remains `initial` and the conversation is
untouched. -/
theorem onFileSelected_rejects_non_pdf (s : AppComponentState) (file : UploadFile)
    (rest : List UploadFile) (extract : Except Unit String) (firstQuestion : String)
    (speakOk : Bool) (htype : file.ftype ≠ "application/pdf")
    (hidle : s.appState = AppState.initial) :
    AppComponent.onFileSelected s (file :: rest) extract firstQuestion speakOk = s ∧
      (AppComponent.onFileSelected s (file :: rest) extract firstQuestion
          speakOk).appState = AppState.initial ∧
      (AppComponent.onFileSelected s (file :: rest) extract firstQuestion
          speakOk).conversation = s.conversation := by
  have hno : AppComponent.onFileSelected s (file :: rest) extract firstQuestion speakOk
      = s := by
    rw [AppComponent.onFileSelected]
    exact if_neg htype
  exact ⟨hno, by rw [hno, hidle], by rw [hno]⟩

/-- Witness for C5: uploading a plain-text file from the initial state. -/
theorem onFileSelected_rejects_non_pdf_witness :
    ({ ftype := "text/plain" } : UploadFile).ftype ≠ "application/pdf" ∧
      AppComponent.initState.appState = AppState.initial ∧
      AppComponent.onFileSelected AppComponent.initState [{ ftype := "text/plain" }]
          (.ok "resume") "Q?" true
        = AppComponent.initState :=
  ⟨by decide, rfl,
    (onFileSelected_rejects_non_pdf AppComponent.initState { ftype := "text/plain" } []
      (.ok "resume") "Q?" true (by decide) rfl).1⟩

/-! ### Claim C7 -/

/-- C7 (confirmed): when the target message has no question context,
`requestAnalysis` is a no-op for either analysis kind: the state (in
particular the modal state) is unchanged and no model-client call is
issued. -/
theorem requestAnalysis_no_op_without_questionContext (s : AppComponentState)
    (kind : AnalysisKind) (idx : Nat) (parsed : Option (List MistakeSegment))
    (suggestion : String) (msg : ChatMessage)
    (hidx : s.conversation.get? idx = some msg)
    (hqc : msg.questionContext = none) :
    AppComponent.requestAnalysis s kind idx parsed suggestion = (s, none) := by
  simp only [AppComponent.requestAnalysis, hidx, hqc]

/-- Witness for C7: a concrete state whose only user message lacks a
question context. -/
theorem requestAnalysis_no_op_witness :
    ({ AppComponent.initState with
        conversation :=
          [{ id := 0, role := Role.user, text := "hello",
             questionContext := none, isAnalyzing := false }]
        nextId := 1 }
        : AppComponentState).conversation.get? 0
      = some ({ id := 0, role := Role.user, text := "hello",
                questionContext := none, isAnalyzing := false } : ChatMessage) ∧
      ({ id := 0, role := Role.user, text := "hello",
         questionContext := none, isAnalyzing := false }
          : ChatMessage).questionContext = none ∧
      AppComponent.requestAnalysis
          { AppComponent.initState with
              conversation :=
                [{ id := 0, role := Role.user, text := "hello",
                   questionContext := none, isAnalyzing := false }]
              nextId := 1 }
          AnalysisKind.mistakes 0 none "s"
        = ({ AppComponent.initState with
              conversation :=
                [{ id := 0, role := Role.user, text := "hello",
                   questionContext := none, isAnalyzing := false }]
              nextId := 1 }, none) :=
  ⟨by decide, rfl,
    requestAnalysis_no_op_without_questionContext _ AnalysisKind.mistakes 0 none "s"
      { id := 0, role := Role.user, text := "hello",
        questionContext := none, isAnalyzing := false }
      (by decide) rfl⟩

/-! ## Speech I/O adapter (`SpeechService`) -/

/-- The outcome of entering `SpeechService.listen`: rejected because the
platform has no recognition capability, resolved immediately because a
session is already active (no second session started), or a new
recognition session started. -/
inductive ListenOutcome
  | rejectedUnsupported (message : String)
  | resolvedNoSession
  | started
deriving DecidableEq, Repr

/-- The rejection value of `listen` when no recognition capability
exists. -/
def recognitionUnsupportedText : String := "Speech recognition not supported"

/-- The guard of `SpeechService.listen`: reject when the constructor found
no `SpeechRecognition` capability; resolve immediately (starting
nothing) when `isListening()` is already true; otherwise start the single
recognition session. -/
def SpeechService.listenEntry (hasRecognition isListeningNow : Bool) : ListenOutcome :=
  if !hasRecognition then ListenOutcome.rejectedUnsupported recognitionUnsupportedText
  else if isListeningNow then ListenOutcome.resolvedNoSession
  else ListenOutcome.started

/-- C8 (confirmed): `listen` fails immediately with the
unsupported-capability rejection when the platform has no recognition
capability (whatever the listening flag), resolves immediately without
starting a second session when already listening, and starts the single
session only in the remaining case. -/
theorem listen_guard_behavior (isListeningNow : Bool) :
    SpeechService.listenEntry false isListeningNow
        = ListenOutcome.rejectedUnsupported recognitionUnsupportedText ∧
      SpeechService.listenEntry true true = ListenOutcome.resolvedNoSession ∧
      SpeechService.listenEntry true false = ListenOutcome.started := by
  cases isListeningNow <;> exact ⟨rfl, rfl, rfl⟩

/-! ### Claim C6: the listening timers

The listening session is modelled at one-second granularity by a trace of
events: `tick` (one second of the countdown interval elapses, and every
pending `setTimeout` ages by one second), `result` (an `onresult`
recognition event, which runs `clearTimeout(silenceTimer)`), and
`speechend` (an `onspeechend` event, which arms a fresh 10-second silence
timeout, overwriting — without cancelling — any currently referenced
one).  Events arriving after the session stopped are ignored
(`recognition.stop()` ends the platform callbacks). -/

/-- An event observed by the listening session. -/
inductive SpeechEv
  | tick
  | result
  | speechend
deriving DecidableEq, Repr

/-- The listening-session timer state: the remaining countdown seconds
(from `MAX_DURATION_SECONDS = 120`), the currently referenced silence
timer (remaining seconds out of `SILENCE_TIMEOUT = 10`), the leaked
silence timers (armed by an `onspeechend` while another was referenced:
`this.silenceTimer = setTimeout(...)` overwrites the reference without
`clearTimeout`, so the old timer still fires), the elapsed seconds, and
the second at which auto-stop fired, if it did. -/
structure RecState where
  listening : Bool
  countdown : Nat
  current : Option Nat
  leaked : List Nat
  elapsed : Nat
  stopAt : Option Nat
deriving DecidableEq, Repr

/-- The state right after `recognition.onstart`. -/
def SpeechService.initRec : RecState :=
  { listening := true, countdown := 120, current := none, leaked := [],
    elapsed := 0, stopAt := none }

/-- One step of the listening session as implemented: `onresult` clears
the referenced silence timer only; `onspeechend` arms a fresh 10-second
timer, leaking the referenced one; each tick decrements the countdown and
every pending silence timer, and stops the session (clearing the
referenced timer and the countdown) when any silence timer expires or the
countdown reaches zero. -/
def SpeechService.step (st : RecState) (e : SpeechEv) : RecState :=
  if st.listening = false then st
  else
    match e with
    | .result => { st with current := none }
    | .speechend => { st with leaked := st.current.toList ++ st.leaked, current := some 10 }
    | .tick =>
      let elapsed1 := st.elapsed + 1
      let current1 := st.current.map (fun r => r - 1)
      let leaked1 := st.leaked.map (fun r => r - 1)
      let countdown1 := st.countdown - 1
      if current1 = some 0 ∨ 0 ∈ leaked1 ∨ countdown1 = 0 then
        { listening := false, countdown := 0, current := none, leaked := leaked1,
          elapsed := elapsed1, stopAt := some elapsed1 }
      else
        { st with countdown := countdown1, current := current1, leaked := leaked1,
                  elapsed := elapsed1 }

/-- The second at which the session auto-stops on a given event trace
(`none` when the trace ends with the session still listening). -/
def SpeechService.autoStopTime (trace : List SpeechEv) : Option Nat :=
  (trace.foldl SpeechService.step SpeechService.initRec).stopAt

/-- Claim-side definition for C6, following the claim's words: auto-stop
exactly when the 120-second countdown reaches zero, or when 10 seconds
elapse with no recognition event since the last one, whichever occurs
first.  `lastEv` is the elapsed time of the most recent recognition
event. -/
def ClaimC6.stopAux : Nat → Nat → Option Nat → List SpeechEv → Option Nat
  | _, _, _, [] => none
  | elapsed, countdown, _, .result :: rest =>
    ClaimC6.stopAux elapsed countdown (some elapsed) rest
  | elapsed, countdown, _, .speechend :: rest =>
    ClaimC6.stopAux elapsed countdown (some elapsed) rest
  | elapsed, countdown, lastEv, .tick :: rest =>
    let elapsed1 := elapsed + 1
    if countdown - 1 = 0 then some elapsed1
    else
      match lastEv with
      | some t0 =>
        if 10 ≤ elapsed1 - t0 then some elapsed1
        else ClaimC6.stopAux elapsed1 (countdown - 1) (some t0) rest
      | none => ClaimC6.stopAux elapsed1 (countdown - 1) none rest

/-- The auto-stop time prescribed by claim C6 as stated. -/
def ClaimC6.stopTime (trace : List SpeechEv) : Option Nat :=
  ClaimC6.stopAux 0 120 none trace

set_option maxRecDepth 8000 in
/-- Counterexample for C6 as stated: after a single recognition result at
second 0 followed by unbroken silence with no speech-end event, the claim
prescribes auto-stop at second 10, but the implementation arms the
10-second silence timer only on `onspeechend`, so the session runs the
full 120-second countdown. -/
theorem listen_silence_since_last_event_cex :
    SpeechService.autoStopTime (SpeechEv.result :: List.replicate 120 SpeechEv.tick)
        = some 120 ∧
      ClaimC6.stopTime (SpeechEv.result :: List.replicate 120 SpeechEv.tick)
        = some 10 ∧
      SpeechService.autoStopTime (SpeechEv.result :: List.replicate 120 SpeechEv.tick)
        ≠ ClaimC6.stopTime (SpeechEv.result :: List.replicate 120 SpeechEv.tick) := by
  refine ⟨by decide, by decide, by decide⟩

/-- Amended-spec model for C6, following the corrected words: one silence
timer, armed to 10 seconds by a speech-end event, cleared by a
recognition result, auto-stop when it expires or when the 120-second
countdown reaches zero, whichever occurs first.  Unlike the
implementation it never leaks a previously armed timer. -/
def SilenceSpec.step (st : RecState) (e : SpeechEv) : RecState :=
  if st.listening = false then st
  else
    match e with
    | .result => { st with current := none }
    | .speechend => { st with current := some 10 }
    | .tick =>
      let elapsed1 := st.elapsed + 1
      let current1 := st.current.map (fun r => r - 1)
      let countdown1 := st.countdown - 1
      if current1 = some 0 ∨ countdown1 = 0 then
        { st with listening := false, countdown := 0, current := none,
                  elapsed := elapsed1, stopAt := some elapsed1 }
      else
        { st with countdown := countdown1, current := current1, elapsed := elapsed1 }

/-- Auto-stop time of the amended-spec model. -/
def SilenceSpec.autoStopTime (trace : List SpeechEv) : Option Nat :=
  (trace.foldl SilenceSpec.step SpeechService.initRec).stopAt

/-- Traces on which a speech-end event never arrives while a silence
timer is still referenced: between any two speech-end events there is a
recognition result.  On the real platform results accompany speech, so
recognition traces are of this form; outside it the implementation leaks
timers (see `SpeechService.step`). -/
def SilenceSpec.wfAux : Bool → List SpeechEv → Bool
  | _, [] => true
  | armed, .speechend :: rest => if armed then false else SilenceSpec.wfAux true rest
  | _, .result :: rest => SilenceSpec.wfAux false rest
  | armed, .tick :: rest => SilenceSpec.wfAux armed rest

/-- Well-formedness of a recognition trace. -/
def SilenceSpec.wf (trace : List SpeechEv) : Bool := SilenceSpec.wfAux false trace

/-- Stepping lemma: on a well-formed remainder of the trace, the
implementation and the amended-spec model run through identical states
provided no timer has leaked, a referenced timer implies the
well-formedness flag, and a stopped session has no referenced timer. -/
theorem foldl_step_eq_of_wfAux :
    ∀ (trace : List SpeechEv) (armed : Bool) (st : RecState),
      st.leaked = [] →
      (st.current.isSome = true → armed = true) →
      (st.listening = false → st.current = none) →
      SilenceSpec.wfAux armed trace = true →
      trace.foldl SpeechService.step st = trace.foldl SilenceSpec.step st := by
  intro trace
  induction trace with
  | nil => intro armed st _ _ _ _; rfl
  | cons e rest ih =>
    intro armed st hleak hcur hstop hwf
    by_cases hl : st.listening = false
    · have hcur0 : st.current = none := hstop hl
      have hstep1 : SpeechService.step st e = st := by
        rw [SpeechService.step.eq_def, if_pos hl]
      have hstep2 : SilenceSpec.step st e = st := by
        rw [SilenceSpec.step.eq_def, if_pos hl]
      rw [List.foldl_cons, List.foldl_cons, hstep1, hstep2]
      cases e with
      | tick =>
        exact ih armed st hleak hcur hstop (by simpa [SilenceSpec.wfAux] using hwf)
      | result =>
        exact ih false st hleak (by simp [hcur0]) hstop
          (by simpa [SilenceSpec.wfAux] using hwf)
      | speechend =>
        have harmed : armed = false := by
          by_contra hc
          have : armed = true := by
            cases armed with
            | true => rfl
            | false => exact absurd rfl hc
          rw [SilenceSpec.wfAux, this] at hwf
          simp at hwf
        rw [harmed] at hwf
        rw [SilenceSpec.wfAux] at hwf
        simp only [if_neg (by simp : ¬(false = true))] at hwf
        exact ih true st hleak (fun _ => rfl) hstop hwf
    · have hl1 : st.listening = true := by
        cases h : st.listening with
        | true => rfl
        | false => exact absurd h hl
      cases e with
      | result =>
        have hstep1 : SpeechService.step st .result = { st with current := none } := by
          rw [SpeechService.step, if_neg hl]
        have hstep2 : SilenceSpec.step st .result = { st with current := none } := by
          rw [SilenceSpec.step, if_neg hl]
        rw [List.foldl_cons, List.foldl_cons, hstep1, hstep2]
        refine ih false _ hleak (by simp) (by simp [hl1]) ?_
        simpa [SilenceSpec.wfAux] using hwf
      | speechend =>
        have harmed : armed = false := by
          by_contra hc
          have : armed = true := by
            cases armed with
            | true => rfl
            | false => exact absurd rfl hc
          rw [SilenceSpec.wfAux, this] at hwf
          simp at hwf
        have hcur0 : st.current = none := by
          cases h : st.current with
          | none => rfl
          | some r =>
            have : armed = true := hcur (by rw [h]; rfl)
            rw [harmed] at this
            exact absurd this (by simp)
        have hstep1 : SpeechService.step st .speechend
            = { st with leaked := st.current.toList ++ st.leaked, current := some 10 } := by
          rw [SpeechService.step, if_neg hl]
        have hstep2 : SilenceSpec.step st .speechend
            = { st with current := some 10 } := by
          rw [SilenceSpec.step, if_neg hl]
        rw [List.foldl_cons, List.foldl_cons, hstep1, hstep2, hcur0, hleak]
        rw [harmed, SilenceSpec.wfAux] at hwf
        simp only [if_neg (by simp : ¬(false = true))] at hwf
        exact ih true _ rfl (fun _ => rfl) (by simp [hl1]) hwf
      | tick =>
        rw [List.foldl_cons, List.foldl_cons]
        have hlk1 : st.leaked.map (fun r => r - 1) = [] := by rw [hleak]; rfl
        by_cases hfire :
            st.current.map (fun r => r - 1) = some 0 ∨ st.countdown - 1 = 0
        · have hstep1 : SpeechService.step st .tick
              = { listening := false, countdown := 0, current := none,
                  leaked := st.leaked.map (fun r => r - 1),
                  elapsed := st.elapsed + 1, stopAt := some (st.elapsed + 1) } := by
            rw [SpeechService.step, if_neg hl]
            simp only
            rw [if_pos]
            rcases hfire with hfire | hfire
            · exact Or.inl hfire
            · exact Or.inr (Or.inr hfire)
          have hstep2 : SilenceSpec.step st .tick
              = { st with
                    listening := false, countdown := 0, current := none,
                    elapsed := st.elapsed + 1, stopAt := some (st.elapsed + 1) } := by
            rw [SilenceSpec.step, if_neg hl]
            simp only
            rw [if_pos hfire]
          rw [hstep1, hstep2, hlk1, hleak]
          exact ih armed _ rfl (by simp) (fun _ => rfl)
            (by simpa [SilenceSpec.wfAux] using hwf)
        · have hnofire :
              ¬(st.current.map (fun r => r - 1) = some 0 ∨
                0 ∈ st.leaked.map (fun r => r - 1) ∨ st.countdown - 1 = 0) := by
            rw [hlk1]
            intro h
            rcases h with h | h | h
            · exact hfire (Or.inl h)
            · exact absurd h (List.not_mem_nil 0)
            · exact hfire (Or.inr h)
          have hstep1 : SpeechService.step st .tick
              = { st with
                    countdown := st.countdown - 1,
                    current := st.current.map (fun r => r - 1),
                    leaked := st.leaked.map (fun r => r - 1),
                    elapsed := st.elapsed + 1 } := by
            rw [SpeechService.step, if_neg hl]
            simp only
            rw [if_neg hnofire]
          have hstep2 : SilenceSpec.step st .tick
              = { st with
                    countdown := st.countdown - 1,
                    current := st.current.map (fun r => r - 1),
                    elapsed := st.elapsed + 1 } := by
            rw [SilenceSpec.step, if_neg hl]
            simp only
            rw [if_neg hfire]
          rw [hstep1, hstep2, hlk1, hleak]
          refine ih armed _ rfl ?_ (by simp [hl1]) ?_
          · intro hsome
            exact hcur (by simpa using hsome)
          · simpa [SilenceSpec.wfAux] using hwf

/-- C6 (corrected): on every well-formed recognition trace, the session
auto-stops exactly when the amended-spec model prescribes: when the
120-second countdown reaches zero, or 10 seconds after a speech-end
event with no recognition result in between, whichever occurs first.
The silence window starts at a speech-end (speech-pause) event, not at
"the last recognition event" as the claim stated. -/
theorem listen_autoStop_silence_from_speechend (trace : List SpeechEv)
    (hwf : SilenceSpec.wf trace = true) :
    SpeechService.autoStopTime trace = SilenceSpec.autoStopTime trace := by
  rw [SpeechService.autoStopTime, SilenceSpec.autoStopTime,
    foldl_step_eq_of_wfAux trace false SpeechService.initRec rfl
      (by intro h; exact absurd h (by simp [SpeechService.initRec]))
      (by intro h; exact absurd h (by simp [SpeechService.initRec])) hwf]

/-- Witness for C6: one speech-end followed by eleven silent seconds is a
well-formed trace; both models stop at second 10. -/
theorem listen_autoStop_witness :
    SilenceSpec.wf (SpeechEv.speechend :: List.replicate 11 SpeechEv.tick) = true ∧
      SpeechService.autoStopTime (SpeechEv.speechend :: List.replicate 11 SpeechEv.tick)
        = SilenceSpec.autoStopTime
            (SpeechEv.speechend :: List.replicate 11 SpeechEv.tick) ∧
      SpeechService.autoStopTime (SpeechEv.speechend :: List.replicate 11 SpeechEv.tick)
        = some 10 :=
  ⟨by decide,
    listen_autoStop_silence_from_speechend
      (SpeechEv.speechend :: List.replicate 11 SpeechEv.tick) (by decide),
    by decide⟩

/-! ### Claim C10: message ids and the system marker -/

/-- One user-interface event handled by the controller, carrying the
results of the external calls the handler awaits. -/
inductive Op
  | setInput (text : String)
  | upload (files : List UploadFile) (extract : Except Unit String)
      (firstQuestion : String) (speakOk : Bool)
  | submit (followUp : String)
  | analyze (kind : AnalysisKind) (idx : Nat)
      (parsed : Option (List MistakeSegment)) (suggestion : String)
  | closeModal

/-- Apply one controller operation to the component state. -/
def AppComponent.applyOp (s : AppComponentState) : Op → AppComponentState
  | .setInput t => { s with userInput := t }
  | .upload files extract q speakOk => AppComponent.onFileSelected s files extract q speakOk
  | .submit q => AppComponent.submitAnswer s q
  | .analyze kind idx parsed suggestion =>
      (AppComponent.requestAnalysis s kind idx parsed suggestion).1
  | .closeModal => { s with modalData := none }

/-- Run a sequence of controller operations from the initial state. -/
def AppComponent.run (ops : List Op) : AppComponentState :=
  ops.foldl AppComponent.applyOp AppComponent.initState

/-- Whether an operation is a successful resume upload: a present first
file with the PDF MIME type whose extraction succeeded. -/
def isSuccessUpload : Op → Bool
  | .upload (file :: _) (.ok _) _ _ => file.ftype == "application/pdf"
  | _ => false

/-- Number of messages with role `system` in a conversation. -/
def countSystem (conv : List ChatMessage) : Nat :=
  conv.countP (fun m => m.role == Role.system)

/-- The id invariant: message ids are pairwise strictly increasing in
conversation order and all lie below the `nextId` counter. -/
def MsgIdInv (conv : List ChatMessage) (n : Nat) : Prop :=
  conv.Pairwise (fun a b => a.id < b.id) ∧ ∀ m ∈ conv, m.id < n

/-- Appending a message that carries the current counter value preserves
the id invariant with the incremented counter. -/
theorem msgIdInv_append (conv : List ChatMessage) (n : Nat) (m : ChatMessage)
    (hm : m.id = n) (h : MsgIdInv conv n) : MsgIdInv (conv ++ [m]) (n + 1) := by
  obtain ⟨hp, hb⟩ := h
  constructor
  · rw [List.pairwise_append]
    refine ⟨hp, List.pairwise_singleton _ _, ?_⟩
    intro a ha b hb1
    rw [List.mem_singleton] at hb1
    rw [hb1, hm]
    exact hb a ha
  · intro x hx
    rcases List.mem_append.mp hx with hx | hx
    · exact Nat.lt_succ_of_lt (hb x hx)
    · rw [List.mem_singleton] at hx
      rw [hx, hm]
      exact Nat.lt_succ_self n
/-- Replacing a list element by one with the same id preserves pairwise
increasing ids. -/
theorem pairwise_id_set :
    ∀ (l : List ChatMessage) (i : Nat) (a b : ChatMessage),
      l.get? i = some a → b.id = a.id →
      l.Pairwise (fun x y => x.id < y.id) →
      (l.set i b).Pairwise (fun x y => x.id < y.id)
  | [], i, a, b, hget, _, _ => by rw [List.get?_nil] at hget; cases hget
  | c :: t, 0, a, b, hget, hid, hp => by
    rw [List.get?_cons_zero] at hget
    injection hget with hca
    rw [List.set_cons_zero]
    rw [List.pairwise_cons] at hp ⊢
    refine ⟨?_, hp.2⟩
    intro y hy
    rw [hid, ← hca]
    exact hp.1 y hy
  | c :: t, i + 1, a, b, hget, hid, hp => by
    rw [List.get?_cons_succ] at hget
    rw [List.set_cons_succ]
    rw [List.pairwise_cons] at hp ⊢
    refine ⟨?_, pairwise_id_set t i a b hget hid hp.2⟩
    intro y hy
    rcases List.mem_or_eq_of_mem_set hy with hy | hy
    · exact hp.1 y hy
    · rw [hy, hid]
      exact hp.1 a (List.get?_mem hget)

/-- Replacing a list element by one with the same id preserves the id
bound. -/
theorem bound_id_set (l : List ChatMessage) (i : Nat) (a b : ChatMessage)
    (hget : l.get? i = some a) (hid : b.id = a.id) (n : Nat)
    (hb : ∀ m ∈ l, m.id < n) : ∀ m ∈ l.set i b, m.id < n := by
  intro m hm
  rcases List.mem_or_eq_of_mem_set hm with hm | hm
  · exact hb m hm
  · rw [hm, hid]
    exact hb a (List.get?_mem hget)

/-- Replacing a list element by one with the same role preserves the
system-message count. -/
theorem countSystem_set :
    ∀ (l : List ChatMessage) (i : Nat) (a b : ChatMessage),
      l.get? i = some a → b.role = a.role →
      countSystem (l.set i b) = countSystem l
  | [], i, a, b, hget, _ => by rw [List.get?_nil] at hget; cases hget
  | c :: t, 0, a, b, hget, hrole => by
    rw [List.get?_cons_zero] at hget
    injection hget with hca
    rw [List.set_cons_zero, countSystem, countSystem, List.countP_cons, List.countP_cons,
      hrole, ← hca]
  | c :: t, i + 1, a, b, hget, hrole => by
    rw [List.get?_cons_succ] at hget
    rw [List.set_cons_succ, countSystem, countSystem, List.countP_cons, List.countP_cons]
    have := countSystem_set t i a b hget hrole
    rw [countSystem, countSystem] at this
    rw [this]

/-- Every controller operation preserves the id invariant. -/
theorem msgIdInv_applyOp (s : AppComponentState) (op : Op)
    (h : MsgIdInv s.conversation s.nextId) :
    MsgIdInv (AppComponent.applyOp s op).conversation
      (AppComponent.applyOp s op).nextId := by
  cases op with
  | setInput t => exact h
  | closeModal => exact h
  | submit q =>
    show MsgIdInv (AppComponent.submitAnswer s q).conversation
      (AppComponent.submitAnswer s q).nextId
    rw [AppComponent.submitAnswer]
    by_cases hc : jsTrim s.userInput = "" ∨ s.appState = AppState.loading
    · rw [if_pos hc]; exact h
    · rw [if_neg hc]
      exact msgIdInv_append _ _ _ rfl (msgIdInv_append _ _ _ rfl h)
  | upload files extract q speakOk =>
    show MsgIdInv (AppComponent.onFileSelected s files extract q speakOk).conversation
      (AppComponent.onFileSelected s files extract q speakOk).nextId
    cases files with
    | nil => exact h
    | cons file rest =>
      simp only [AppComponent.onFileSelected]
      by_cases hf : file.ftype = "application/pdf"
      · rw [if_pos hf]
        cases extract with
        | error e => exact h
        | ok txt =>
          have h1 : MsgIdInv
              [({ id := s.nextId, role := .system, text := resumeProcessedText,
                  questionContext := none, isAnalyzing := false } : ChatMessage)]
              (s.nextId + 1) := by
            constructor
            · exact List.pairwise_singleton _ _
            · intro m hm
              rw [List.mem_singleton] at hm
              rw [hm]
              exact Nat.lt_succ_self _
          have h2 := msgIdInv_append _ _
            ({ id := s.nextId + 1, role := .assistant, text := q,
               questionContext := none, isAnalyzing := false } : ChatMessage) rfl h1
          cases speakOk with
          | true => exact h2
          | false => exact h2
      · rw [if_neg hf]; exact h
  | analyze kind idx parsed suggestion =>
    show MsgIdInv (AppComponent.requestAnalysis s kind idx parsed suggestion).1.conversation
      (AppComponent.requestAnalysis s kind idx parsed suggestion).1.nextId
    cases hidx : s.conversation.get? idx with
    | none => simp only [AppComponent.requestAnalysis, hidx]; exact h
    | some msg =>
      cases hqc : msg.questionContext with
      | none => simp only [AppComponent.requestAnalysis, hidx, hqc]; exact h
      | some qc =>
        by_cases hq0 : qc = ""
        · simp only [AppComponent.requestAnalysis, hidx, hqc, if_pos hq0]; exact h
        · simp only [AppComponent.requestAnalysis, hidx, hqc, if_neg hq0]
          rw [List.set_set]
          refine ⟨pairwise_id_set _ _ _ _ hidx rfl h.1, ?_⟩
          exact bound_id_set s.conversation idx msg
            { id := msg.id, role := msg.role, text := msg.text,
              questionContext := some qc, isAnalyzing := false }
            hidx rfl s.nextId h.2

/-- Every controller operation leaves the system-message count unchanged,
except a successful upload, which makes it exactly one. -/
theorem countSystem_applyOp (s : AppComponentState) (op : Op) :
    countSystem (AppComponent.applyOp s op).conversation
      = if isSuccessUpload op then 1 else countSystem s.conversation := by
  cases op with
  | setInput t => rfl
  | closeModal => rfl
  | submit q =>
    show countSystem (AppComponent.submitAnswer s q).conversation = _
    rw [AppComponent.submitAnswer]
    by_cases hc : jsTrim s.userInput = "" ∨ s.appState = AppState.loading
    · rw [if_pos hc]
      simp [isSuccessUpload]
    · rw [if_neg hc]
      simp [isSuccessUpload, AppComponent.addMessage, countSystem,
        List.countP_append, List.countP_cons]
  | upload files extract q speakOk =>
    show countSystem (AppComponent.onFileSelected s files extract q speakOk).conversation = _
    cases files with
    | nil => simp [AppComponent.onFileSelected, isSuccessUpload]
    | cons file rest =>
      simp only [AppComponent.onFileSelected]
      by_cases hf : file.ftype = "application/pdf"
      · rw [if_pos hf]
        cases extract with
        | error e => simp [isSuccessUpload]
        | ok txt =>
          cases speakOk with
          | true =>
            show countSystem (_ ++ _) = _
            simp [isSuccessUpload, hf, countSystem, List.countP_append, List.countP_cons]
          | false =>
            show countSystem (_ ++ _) = _
            simp [isSuccessUpload, hf, countSystem, List.countP_append, List.countP_cons]
      · rw [if_neg hf]
        cases extract with
        | error e => simp only [isSuccessUpload]; simp
        | ok txt => simp only [isSuccessUpload]; simp [hf]
  | analyze kind idx parsed suggestion =>
    show countSystem (AppComponent.requestAnalysis s kind idx parsed suggestion).1.conversation = _
    cases hidx : s.conversation.get? idx with
    | none =>
      simp only [AppComponent.requestAnalysis, hidx, isSuccessUpload]
      simp
    | some msg =>
      cases hqc : msg.questionContext with
      | none =>
        simp only [AppComponent.requestAnalysis, hidx, hqc, isSuccessUpload]
        simp
      | some qc =>
        by_cases hq0 : qc = ""
        · simp only [AppComponent.requestAnalysis, hidx, hqc, if_pos hq0, isSuccessUpload]
          simp
        · simp only [AppComponent.requestAnalysis, hidx, hqc, if_neg hq0, isSuccessUpload]
          rw [List.set_set]
          rw [countSystem_set s.conversation idx msg
            { id := msg.id, role := msg.role, text := msg.text,
              questionContext := some qc, isAnalyzing := false } hidx rfl]
          simp

/-- The id invariant holds along every run of controller operations. -/
theorem msgIdInv_foldl : ∀ (ops : List Op) (s : AppComponentState),
    MsgIdInv s.conversation s.nextId →
    MsgIdInv ((ops.foldl AppComponent.applyOp s)).conversation
      ((ops.foldl AppComponent.applyOp s)).nextId := by
  intro ops
  induction ops with
  | nil => intro s h; exact h
  | cons op rest ih =>
    intro s h
    rw [List.foldl_cons]
    exact ih _ (msgIdInv_applyOp s op h)

/-- The system-message count along a run: one when the run contains a
successful upload, otherwise whatever the start state had. -/
theorem countSystem_foldl : ∀ (ops : List Op) (s : AppComponentState),
    countSystem ((ops.foldl AppComponent.applyOp s)).conversation
      = if ops.any isSuccessUpload then 1 else countSystem s.conversation := by
  intro ops
  induction ops with
  | nil => intro s; simp
  | cons op rest ih =>
    intro s
    rw [List.foldl_cons, ih, List.any_cons, countSystem_applyOp]
    by_cases hop : isSuccessUpload op = true
    · by_cases hrest : rest.any isSuccessUpload = true
      · simp [hop, hrest]
      · simp [hop, hrest]
    · by_cases hrest : rest.any isSuccessUpload = true
      · simp [hop, hrest]
      · simp [hop, hrest]

/-- C10 (corrected): along every run of controller operations from the
initial state, message ids are strictly increasing in creation (and hence
conversation) order and therefore unique — the ids come from the `nextId`
counter, which is incremented on every creation and never reset — and the
conversation contains exactly one message with role `system` precisely
when a successful resume upload has occurred, and zero such messages
before (in particular in the initial state, where the conversation is
empty). -/
theorem controller_message_invariants (ops : List Op) :
    (AppComponent.run ops).conversation.Pairwise (fun a b => a.id < b.id) ∧
      ((AppComponent.run ops).conversation.map (fun m => m.id)).Nodup ∧
      countSystem (AppComponent.run ops).conversation
        = (if ops.any isSuccessUpload then 1 else 0) := by
  have hinv := msgIdInv_foldl ops AppComponent.initState
    ⟨List.Pairwise.nil, by intro m hm; cases hm⟩
  have hcount := countSystem_foldl ops AppComponent.initState
  refine ⟨hinv.1, ?_, ?_⟩
  · show ((AppComponent.run ops).conversation.map (fun m => m.id)).Pairwise (· ≠ ·)
    rw [List.pairwise_map]
    exact hinv.1.imp (fun h => Nat.ne_of_lt h)
  · exact hcount

/-- Counterexample for C10 as stated: before any upload — here, in the
initial state reached by the empty run — the conversation holds zero
messages with role `system`, not exactly one. -/
theorem run_initial_state_no_system_message_cex :
    (AppComponent.run []).conversation = [] ∧
      countSystem (AppComponent.run []).conversation ≠ 1 :=
  ⟨rfl, by decide⟩
